import Mathlib

/-!
# Verification of the attestation decoding core of go-opentimestamps

Shallow embedding of `opentimestamps/attestations.go`: the attestation
type registry and the binary decoding dispatcher `ParseAttestation`.

The byte-stream reader (`deserializationContext`) is not part of the
given sources; it is modelled from the spec's interface description
(§6: read-exact-N-bytes, read-size-bounded-byte-sequence(min, max),
read-variable-length-unsigned-integer, assert-end-of-stream), with the
varint encoding fixed by the spec's concrete scenario
(`e8 07` decodes to 1000, i.e. base-128 little-endian with a
continuation bit, accumulated into an unsigned 64-bit value).

A stream is a list of byte values; reading consumes from the front and
returns the remaining list.  Pointer-receiver methods of the Go source
are translated by explicit state passing: each `decode` returns, next
to its ordinary result, the receiver as it stands after the call, and
`ParseAttestation` threads the registry through the scan, so that
frame properties (the prototypes are never mutated) are statable.
Panics (`unknownAttestation.match` / `.decode` have bodies
`panic("not implemented")`) are modelled by `Option`: `none` is a
panic, `some` a normal return.
-/

deriving instance DecidableEq for Except

namespace OTS

/-- `attestationTagSize = 8` from the source constants. -/
def attestationTagSize : Nat := 8

/-- `attestationMaxPayloadSize = 8192` from the source constants. -/
def attestationMaxPayloadSize : Nat := 8192

/-- `pendingAttestationMaxUriLength = 1000` from the source constants. -/
def pendingAttestationMaxUriLength : Nat := 1000

/-- `bitcoinAttestationTag = mustDecodeHex("0588960d73d71901")`. -/
def bitcoinAttestationTag : List Nat := [0x05, 0x88, 0x96, 0x0d, 0x73, 0xd7, 0x19, 0x01]

/-- `pendingAttestationTag = mustDecodeHex("83dfe30d2ef90c8e")`. -/
def pendingAttestationTag : List Nat := [0x83, 0xdf, 0xe3, 0x0d, 0x2e, 0xf9, 0x0c, 0x8e]

/-- Error kinds surfaced by decoding, following the spec's §7 error
taxonomy: `truncated` = `TruncatedInput`, `tooLarge` = `PayloadTooLarge` /
`UriTooLarge` (a declared length exceeds the hardcoded bound),
`tooSmall` = a declared length below the reader's minimum bound, and
`expectedEOF` = `TrailingPayloadBytes`, the dispatcher's own
`fmt.Errorf("expected EOF in attCtx")`. -/
inductive DError where
  | truncated
  | tooLarge
  | tooSmall
  | expectedEOF
deriving DecidableEq, Repr

/-- Modelled from the spec: the stream reader's read-exact-N-bytes
operation.  Returns the first `n` bytes and the remaining stream, or a
truncation error when fewer than `n` bytes remain; it never reads past
the available bytes. -/
def readBytes (n : Nat) (s : List Nat) : Except DError (List Nat × List Nat) :=
  if n ≤ s.length then .ok (s.take n, s.drop n) else .error .truncated

/-- Modelled from the spec: the accumulation loop of the reader's
variable-length unsigned integer read.  Each byte contributes its low
7 bits at the current shift; a clear high bit ends the number.  The
accumulator is an unsigned 64-bit value, hence the reduction
`% 2 ^ 64`. -/
def readVarUintAux : List Nat → Nat → Nat → Except DError (Nat × List Nat)
  | [], _, _ => .error .truncated
  | b :: rest, acc, shift =>
    let acc' := (acc + b % 128 * 2 ^ shift) % 2 ^ 64
    if b % 256 < 128 then .ok (acc', rest)
    else readVarUintAux rest acc' (shift + 7)

/-- Modelled from the spec: read-variable-length-unsigned-integer. -/
def readVarUint (s : List Nat) : Except DError (Nat × List Nat) :=
  readVarUintAux s 0 0

/-- Modelled from the spec: read-size-bounded-byte-sequence(min, max).
Reads a varint length, rejects it against the bounds *before* the
bytes themselves are read (the spec: bounds are "enforced before
allocation of the corresponding buffer"), then reads that many
bytes. -/
def readVarBytes (minLen maxLen : Nat) (s : List Nat) : Except DError (List Nat × List Nat) :=
  match readVarUint s with
  | .error e => .error e
  | .ok (n, rest) =>
    if maxLen < n then .error .tooLarge
    else if n < minLen then .error .tooSmall
    else readBytes n rest

/-- Modelled from the spec: assert-end-of-stream; true iff the stream
is exhausted. -/
def assertEOF (s : List Nat) : Bool := s.isEmpty

/-- `baseAttestation`: the shared scaffolding holding a tag. -/
structure baseAttestation where
  tag : List Nat
deriving DecidableEq, Repr

/-- `baseAttestation.match`: `bytes.Equal(b.tag, tag)`.  (`match` is a
Lean keyword, hence the name `matchTag`.) -/
def baseAttestation.matchTag (b : baseAttestation) (tag : List Nat) : Bool :=
  b.tag == tag

/-- `pendingAttestation`: embeds `baseAttestation`; `uri` is a Go
string built by raw-byte transfer from the decoded bytes, kept here as
the byte list itself (the source defers UTF-8 checks). -/
structure pendingAttestation where
  base : baseAttestation
  uri : List Nat
deriving DecidableEq, Repr

/-- `newPendingAttestation()`: prototype with the pending tag and
zero-valued `uri`. -/
def newPendingAttestation : pendingAttestation :=
  { base := { tag := pendingAttestationTag }, uri := [] }

/-- `pendingAttestation.match`: delegates to `baseAttestation.match`. -/
def pendingAttestation.matchTag (p : pendingAttestation) (tag : List Nat) : Bool :=
  p.base.matchTag tag

/-- `pendingAttestation.decode`: reads one var-byte sequence bounded by
`pendingAttestationMaxUriLength` from the sub-stream; on success
returns a copy of the receiver (`ret := *p`) with `uri` set.  The
second component is the receiver after the call (the body never writes
through `p`). -/
def pendingAttestation.decode (p : pendingAttestation) (s : List Nat) :
    Except DError (pendingAttestation × List Nat) × pendingAttestation :=
  match readVarBytes 0 pendingAttestationMaxUriLength s with
  | .error e => (.error e, p)
  | .ok (uri, rest) => (.ok ({ p with uri := uri }, rest), p)

/-- `bitcoinAttestation`: embeds `baseAttestation`; `height` is the
`uint64` block height. -/
structure bitcoinAttestation where
  base : baseAttestation
  height : Nat
deriving DecidableEq, Repr

/-- `newBitcoinAttestation()`: prototype with the bitcoin tag and
zero-valued `height`. -/
def newBitcoinAttestation : bitcoinAttestation :=
  { base := { tag := bitcoinAttestationTag }, height := 0 }

/-- `bitcoinAttestation.match`: delegates to `baseAttestation.match`. -/
def bitcoinAttestation.matchTag (b : bitcoinAttestation) (tag : List Nat) : Bool :=
  b.base.matchTag tag

/-- `bitcoinAttestation.decode`: reads one varint from the sub-stream;
on success returns a copy of the receiver (`ret := *b`) with `height`
set.  The second component is the receiver after the call. -/
def bitcoinAttestation.decode (b : bitcoinAttestation) (s : List Nat) :
    Except DError (bitcoinAttestation × List Nat) × bitcoinAttestation :=
  match readVarUint s with
  | .error e => (.error e, b)
  | .ok (height, rest) => (.ok ({ b with height := height }, rest), b)

/-- `unknownAttestation`: catch-all holder of a raw tag and raw
payload bytes. -/
structure unknownAttestation where
  tag : List Nat
  bytes : List Nat
deriving DecidableEq, Repr

/-- The `attestation` interface value returned by `ParseAttestation`:
one of the three concrete variants. -/
inductive attestation where
  | pending (p : pendingAttestation)
  | bitcoin (b : bitcoinAttestation)
  | unknown (u : unknownAttestation)
deriving DecidableEq, Repr

/-- A registry entry: an `attestation` interface value as storable in
the `attestations` list (a prototype carrying its own state). -/
inductive regEntry where
  | pendingP (p : pendingAttestation)
  | bitcoinP (b : bitcoinAttestation)
  | unknownP (u : unknownAttestation)
deriving DecidableEq, Repr

/-- Dynamic dispatch of `a.match(tag)` on an interface value.
`unknownAttestation.match` is `panic("not implemented")`, modelled as
`none`. -/
def regMatch : regEntry → List Nat → Option Bool
  | .pendingP p, tag => some (p.matchTag tag)
  | .bitcoinP b, tag => some (b.matchTag tag)
  | .unknownP _, _ => none

/-- Dynamic dispatch of `a.decode(attCtx)` on an interface value:
the decode result (decoded attestation and remaining sub-stream, or an
error) paired with the receiver after the call.
`unknownAttestation.decode` is `panic("not implemented")`, modelled as
`none`. -/
def regDecode : regEntry → List Nat → Option (Except DError (attestation × List Nat) × regEntry)
  | .pendingP p, s =>
    match p.decode s with
    | (.error e, p') => some (.error e, .pendingP p')
    | (.ok (ret, rest), p') => some (.ok (.pending ret, rest), .pendingP p')
  | .bitcoinP b, s =>
    match b.decode s with
    | (.error e, b') => some (.error e, .bitcoinP b')
    | (.ok (ret, rest), b') => some (.ok (.bitcoin ret, rest), .bitcoinP b')
  | .unknownP _, _ => none

/-- `var attestations []attestation`: the registry, pending prototype
first, bitcoin prototype second. -/
def attestations : List regEntry :=
  [.pendingP newPendingAttestation, .bitcoinP newBitcoinAttestation]

/-- The `for _, a := range attestations` loop of `ParseAttestation`,
given the candidate tag and the payload bytes (the isolated
sub-stream).  For the first entry whose `match` returns true, runs its
`decode` and then asserts the sub-stream is exhausted (else the
`expected EOF in attCtx` error).  Yields `some att` for a decoded
attestation, `none` when no entry matched (the caller falls back to
`unknownAttestation`), next to the registry as left after the scan;
an outer `none` is a panic inside `match` or `decode`. -/
def scanRegistry : List regEntry → List Nat → List Nat →
    Option (Except DError (Option attestation) × List regEntry)
  | [], _, _ => some (.ok none, [])
  | a :: rest, tag, attBytes =>
    match regMatch a tag with
    | none => none
    | some false =>
      match scanRegistry rest tag attBytes with
      | none => none
      | some (res, rest') => some (res, a :: rest')
    | some true =>
      match regDecode a attBytes with
      | none => none
      | some (.error e, a') => some (.error e, a' :: rest)
      | some (.ok (att, subRest), a') =>
        if assertEOF subRest then some (.ok (some att), a' :: rest)
        else some (.error .expectedEOF, a' :: rest)

/-- `ParseAttestation(ctx)`: reads the 8-byte tag, then the var-byte
payload bounded by `attestationMaxPayloadSize`, wraps the payload as
an isolated sub-stream, scans the registry, and on no match returns
`unknownAttestation{tag, attBytes}`.  The registry is threaded
explicitly (the Go global `attestations`); the result pairs the
outcome with the registry after the call, and `none` is a panic. -/
def ParseAttestation (reg : List regEntry) (s : List Nat) :
    Option (Except DError (attestation × List Nat) × List regEntry) :=
  match readBytes attestationTagSize s with
  | .error e => some (.error e, reg)
  | .ok (tag, s₁) =>
    match readVarBytes 0 attestationMaxPayloadSize s₁ with
    | .error e => some (.error e, reg)
    | .ok (attBytes, s₂) =>
      match scanRegistry reg tag attBytes with
      | none => none
      | some (.error e, reg') => some (.error e, reg')
      | some (.ok (some att), reg') => some (.ok (att, s₂), reg')
      | some (.ok none, reg') =>
        some (.ok (.unknown { tag := tag, bytes := attBytes }, s₂), reg')

/-- Varint encoder (test-harness side, not part of the source): the
base-128 little-endian encoding with continuation bits that
`readVarUint` consumes; used to construct well-formed wire inputs. -/
def varuintEncode (n : Nat) : List Nat :=
  if _h : n < 128 then [n]
  else (n % 128 + 128) :: varuintEncode (n / 128)
decreasing_by exact Nat.div_lt_self (by omega) (by omega)

/-! ## Stream-reader lemmas -/

/-- Reading exactly the length of a leading block returns that block
and the rest. -/
theorem readBytes_append (a b : List Nat) :
    readBytes a.length (a ++ b) = .ok (a, b) := by
  unfold readBytes
  rw [if_pos (by simp), List.take_left, List.drop_left]

/-- Reading more bytes than remain is a truncation error. -/
theorem readBytes_short (n : Nat) (s : List Nat) (h : s.length < n) :
    readBytes n s = .error .truncated := by
  unfold readBytes
  rw [if_neg (by omega)]

/-- A successful `readBytes` leaves a suffix of the input stream. -/
theorem readBytes_suffix (n : Nat) (s a s' : List Nat)
    (h : readBytes n s = .ok (a, s')) : s' <:+ s := by
  unfold readBytes at h
  split at h
  · cases h
    exact List.drop_suffix n s
  · cases h

/-- Decoding the varint encoding of `n` from the front of a stream:
the accumulator loop adds `n * 2 ^ shift` to the accumulator, modulo
`2 ^ 64`. -/
theorem readVarUintAux_encode (n : Nat) : ∀ (rest : List Nat) (acc shift : Nat),
    acc < 2 ^ 64 →
    readVarUintAux (varuintEncode n ++ rest) acc shift =
      .ok ((acc + n * 2 ^ shift) % 2 ^ 64, rest) := by
  induction n using Nat.strong_induction_on with
  | _ n ih =>
    intro rest acc shift hacc
    rw [varuintEncode]
    by_cases h : n < 128
    · rw [dif_pos h]
      have h256 : n % 256 = n := Nat.mod_eq_of_lt (by omega)
      have h128 : n % 128 = n := Nat.mod_eq_of_lt h
      simp only [List.singleton_append, readVarUintAux, h256, h128]
      rw [if_pos h]
      simp
    · rw [dif_neg h]
      have h128 : (n % 128 + 128) % 128 = n % 128 := by
        rw [Nat.add_mod_right]
        exact Nat.mod_eq_of_lt (Nat.mod_lt n (by omega))
      have h256 : (n % 128 + 128) % 256 = n % 128 + 128 :=
        Nat.mod_eq_of_lt (by have := Nat.mod_lt n (show 0 < 128 by omega); omega)
      simp only [List.cons_append, readVarUintAux, h128, h256]
      rw [if_neg (by omega)]
      rw [show ∀ x y : List Nat, x.append y = x ++ y from fun _ _ => rfl]
      rw [ih (n / 128) (Nat.div_lt_self (by omega) (by omega)) rest _ (shift + 7)
        (Nat.mod_lt _ (by positivity))]
      congr 1
      rw [Prod.mk.injEq]
      refine ⟨?_, rfl⟩
      rw [Nat.mod_add_mod]
      congr 1
      have hp : 2 ^ (shift + 7) = 2 ^ shift * 128 := by rw [pow_add]; norm_num
      have hd : n % 128 + 128 * (n / 128) = n := Nat.mod_add_div n 128
      calc acc + n % 128 * 2 ^ shift + n / 128 * 2 ^ (shift + 7)
          = acc + (n % 128 + 128 * (n / 128)) * 2 ^ shift := by rw [hp]; ring
        _ = acc + n * 2 ^ shift := by rw [hd]

/-- Round-trip: `readVarUint` decodes `varuintEncode n` back to `n`
(for `n` representable in 64 bits) and leaves the rest untouched. -/
theorem readVarUint_encode (n : Nat) (rest : List Nat) (h : n < 2 ^ 64) :
    readVarUint (varuintEncode n ++ rest) = .ok (n, rest) := by
  unfold readVarUint
  rw [readVarUintAux_encode n rest 0 0 (by positivity)]
  simp only [Nat.zero_add, pow_zero, Nat.mul_one, Nat.mod_eq_of_lt h]

/-- The varint encoding of `n < 128 ^ (k + 1)` takes at most `k + 1`
bytes. -/
theorem varuintEncode_length (k : Nat) : ∀ n : Nat, n < 128 ^ (k + 1) →
    (varuintEncode n).length ≤ k + 1 := by
  induction k with
  | zero =>
    intro n hn
    rw [varuintEncode, dif_pos (by simpa using hn)]
    simp
  | succ k ih =>
    intro n hn
    rw [varuintEncode]
    by_cases h : n < 128
    · rw [dif_pos h]; simp
    · rw [dif_neg h]
      have : n / 128 < 128 ^ (k + 1) := by
        rw [Nat.div_lt_iff_lt_mul (by omega)]
        calc n < 128 ^ (k + 1 + 1) := hn
          _ = 128 ^ (k + 1) * 128 := by ring
      simpa using Nat.succ_le_succ (ih (n / 128) this)

/-- A successful `readVarUintAux` leaves a suffix of the input
stream. -/
theorem readVarUintAux_suffix (s : List Nat) : ∀ (acc shift v : Nat) (s' : List Nat),
    readVarUintAux s acc shift = .ok (v, s') → s' <:+ s := by
  induction s with
  | nil => intro acc shift v s' h; cases h
  | cons b rest ih =>
    intro acc shift v s' h
    simp only [readVarUintAux] at h
    split at h
    · cases h
      exact ⟨[b], rfl⟩
    · exact (ih _ _ _ _ h).trans ⟨[b], rfl⟩

/-- A successful `readVarBytes` leaves a suffix of the input stream. -/
theorem readVarBytes_suffix (minLen maxLen : Nat) (s a s' : List Nat)
    (h : readVarBytes minLen maxLen s = .ok (a, s')) : s' <:+ s := by
  unfold readVarBytes at h
  split at h
  · cases h
  next n rest heq =>
    split at h
    · cases h
    split at h
    · cases h
    exact (readBytes_suffix n rest a s' h).trans
      (readVarUintAux_suffix s 0 0 n rest heq)

/-- Reading a var-byte sequence whose declared length fits the bounds
returns exactly the encoded block. -/
theorem readVarBytes_append (minLen maxLen : Nat) (a rest : List Nat)
    (hmin : minLen ≤ a.length) (hmax : a.length ≤ maxLen) (h64 : maxLen < 2 ^ 64) :
    readVarBytes minLen maxLen (varuintEncode a.length ++ (a ++ rest)) = .ok (a, rest) := by
  simp only [readVarBytes, readVarUint_encode a.length (a ++ rest) (by omega)]
  rw [if_neg (by omega), if_neg (by omega), readBytes_append]

/-- A var-byte read whose declared length exceeds the maximum bound
fails with the too-large error, whatever bytes follow the length. -/
theorem readVarBytes_tooLarge (minLen maxLen n : Nat) (rest : List Nat)
    (hn : maxLen < n) (h64 : n < 2 ^ 64) :
    readVarBytes minLen maxLen (varuintEncode n ++ rest) = .error .tooLarge := by
  simp only [readVarBytes, readVarUint_encode n rest h64]
  rw [if_pos hn]

/-! ## Dispatch lemmas -/

/-- `match` on a pending prototype is byte equality with its stored
tag. -/
theorem regMatch_pendingP (p : pendingAttestation) (tag : List Nat) :
    regMatch (.pendingP p) tag = some (p.base.tag == tag) := rfl

/-- `match` on a bitcoin prototype is byte equality with its stored
tag. -/
theorem regMatch_bitcoinP (b : bitcoinAttestation) (tag : List Nat) :
    regMatch (.bitcoinP b) tag = some (b.base.tag == tag) := rfl

/-- The pending decode never writes through its receiver. -/
theorem pending_decode_snd (p : pendingAttestation) (s : List Nat) :
    (p.decode s).2 = p := by
  unfold pendingAttestation.decode
  split <;> rfl

/-- The bitcoin decode never writes through its receiver. -/
theorem bitcoin_decode_snd (b : bitcoinAttestation) (s : List Nat) :
    (b.decode s).2 = b := by
  unfold bitcoinAttestation.decode
  split <;> rfl

/-- Dispatched pending decode, error case. -/
theorem regDecode_pendingP_error (p : pendingAttestation) (s : List Nat) (e : DError)
    (h : readVarBytes 0 pendingAttestationMaxUriLength s = .error e) :
    regDecode (.pendingP p) s = some (.error e, .pendingP p) := by
  simp only [regDecode, pendingAttestation.decode, h]

/-- Dispatched pending decode, success case. -/
theorem regDecode_pendingP_ok (p : pendingAttestation) (s uri rest : List Nat)
    (h : readVarBytes 0 pendingAttestationMaxUriLength s = .ok (uri, rest)) :
    regDecode (.pendingP p) s =
      some (.ok (.pending { p with uri := uri }, rest), .pendingP p) := by
  simp only [regDecode, pendingAttestation.decode, h]

/-- Dispatched bitcoin decode, error case. -/
theorem regDecode_bitcoinP_error (b : bitcoinAttestation) (s : List Nat) (e : DError)
    (h : readVarUint s = .error e) :
    regDecode (.bitcoinP b) s = some (.error e, .bitcoinP b) := by
  simp only [regDecode, bitcoinAttestation.decode, h]

/-- Dispatched bitcoin decode, success case. -/
theorem regDecode_bitcoinP_ok (b : bitcoinAttestation) (s : List Nat) (height : Nat)
    (rest : List Nat) (h : readVarUint s = .ok (height, rest)) :
    regDecode (.bitcoinP b) s =
      some (.ok (.bitcoin { b with height := height }, rest), .bitcoinP b) := by
  simp only [regDecode, bitcoinAttestation.decode, h]

/-- Scanning the actual registry with a tag matching neither constant
selects no variant and leaves the registry as it was. -/
theorem scan_no_match (tag payload : List Nat)
    (h1 : tag ≠ pendingAttestationTag) (h2 : tag ≠ bitcoinAttestationTag) :
    scanRegistry attestations tag payload = some (.ok none, attestations) := by
  have e1 : regMatch (.pendingP newPendingAttestation) tag = some false := by
    rw [regMatch_pendingP]
    simp [newPendingAttestation, beq_eq_false_iff_ne, Ne.symm h1]
  have e2 : regMatch (.bitcoinP newBitcoinAttestation) tag = some false := by
    rw [regMatch_bitcoinP]
    simp [newBitcoinAttestation, beq_eq_false_iff_ne, Ne.symm h2]
  simp only [attestations, scanRegistry, e1, e2]

/-- Scanning the actual registry with the pending tag runs the pending
decode; success with an exhausted sub-stream yields the decoded
pending attestation. -/
theorem scan_pending_ok (payload uri : List Nat)
    (h : readVarBytes 0 pendingAttestationMaxUriLength payload = .ok (uri, [])) :
    scanRegistry attestations pendingAttestationTag payload =
      some (.ok (some (.pending { newPendingAttestation with uri := uri })), attestations) := by
  have e1 : regMatch (.pendingP newPendingAttestation) pendingAttestationTag = some true := by
    rw [regMatch_pendingP]; simp [newPendingAttestation]
  simp only [attestations, scanRegistry, e1,
    regDecode_pendingP_ok newPendingAttestation payload uri [] h, assertEOF,
    List.isEmpty_nil, if_true]

/-- Scanning with the pending tag: decode succeeded but bytes remain
in the sub-stream, so the scan fails with the expected-EOF error. -/
theorem scan_pending_trailing (payload uri rest : List Nat)
    (h : readVarBytes 0 pendingAttestationMaxUriLength payload = .ok (uri, rest))
    (hr : rest ≠ []) :
    scanRegistry attestations pendingAttestationTag payload =
      some (.error .expectedEOF, attestations) := by
  have e1 : regMatch (.pendingP newPendingAttestation) pendingAttestationTag = some true := by
    rw [regMatch_pendingP]; simp [newPendingAttestation]
  have he : assertEOF rest = false := by
    simp [assertEOF, List.isEmpty_iff, hr]
  simp only [attestations, scanRegistry, e1,
    regDecode_pendingP_ok newPendingAttestation payload uri rest h, he, if_false,
    Bool.false_eq_true]

/-- Scanning with the pending tag: the pending decode failed, and its
error propagates unchanged. -/
theorem scan_pending_error (payload : List Nat) (e : DError)
    (h : readVarBytes 0 pendingAttestationMaxUriLength payload = .error e) :
    scanRegistry attestations pendingAttestationTag payload =
      some (.error e, attestations) := by
  have e1 : regMatch (.pendingP newPendingAttestation) pendingAttestationTag = some true := by
    rw [regMatch_pendingP]; simp [newPendingAttestation]
  simp only [attestations, scanRegistry, e1,
    regDecode_pendingP_error newPendingAttestation payload e h]

/-- Scanning the actual registry with the bitcoin tag skips the
pending prototype (its tag differs) and runs the bitcoin decode;
success with an exhausted sub-stream yields the decoded bitcoin
attestation. -/
theorem scan_bitcoin_ok (payload : List Nat) (height : Nat)
    (h : readVarUint payload = .ok (height, [])) :
    scanRegistry attestations bitcoinAttestationTag payload =
      some (.ok (some (.bitcoin { newBitcoinAttestation with height := height })), attestations) := by
  have e1 : regMatch (.pendingP newPendingAttestation) bitcoinAttestationTag = some false := by
    rw [regMatch_pendingP]; simp [newPendingAttestation]; decide
  have e2 : regMatch (.bitcoinP newBitcoinAttestation) bitcoinAttestationTag = some true := by
    rw [regMatch_bitcoinP]; simp [newBitcoinAttestation]
  simp only [attestations, scanRegistry, e1, e2,
    regDecode_bitcoinP_ok newBitcoinAttestation payload height [] h, assertEOF,
    List.isEmpty_nil, if_true]

/-- Scanning with the bitcoin tag: decode succeeded but bytes remain
in the sub-stream, so the scan fails with the expected-EOF error. -/
theorem scan_bitcoin_trailing (payload : List Nat) (height : Nat) (rest : List Nat)
    (h : readVarUint payload = .ok (height, rest)) (hr : rest ≠ []) :
    scanRegistry attestations bitcoinAttestationTag payload =
      some (.error .expectedEOF, attestations) := by
  have e1 : regMatch (.pendingP newPendingAttestation) bitcoinAttestationTag = some false := by
    rw [regMatch_pendingP]; simp [newPendingAttestation]; decide
  have e2 : regMatch (.bitcoinP newBitcoinAttestation) bitcoinAttestationTag = some true := by
    rw [regMatch_bitcoinP]; simp [newBitcoinAttestation]
  have he : assertEOF rest = false := by
    simp [assertEOF, List.isEmpty_iff, hr]
  simp only [attestations, scanRegistry, e1, e2,
    regDecode_bitcoinP_ok newBitcoinAttestation payload height rest h, he, if_false,
    Bool.false_eq_true]

/-- Scanning with the bitcoin tag: the bitcoin decode failed, and its
error propagates unchanged. -/
theorem scan_bitcoin_error (payload : List Nat) (e : DError)
    (h : readVarUint payload = .error e) :
    scanRegistry attestations bitcoinAttestationTag payload =
      some (.error e, attestations) := by
  have e1 : regMatch (.pendingP newPendingAttestation) bitcoinAttestationTag = some false := by
    rw [regMatch_pendingP]; simp [newPendingAttestation]; decide
  have e2 : regMatch (.bitcoinP newBitcoinAttestation) bitcoinAttestationTag = some true := by
    rw [regMatch_bitcoinP]; simp [newBitcoinAttestation]
  simp only [attestations, scanRegistry, e1, e2,
    regDecode_bitcoinP_error newBitcoinAttestation payload e h]

/-! ## Dispatcher lemmas -/

/-- Running `ParseAttestation` on a well-formed record (8-byte tag,
in-bound length-prefixed payload, trailing outer bytes) reduces to the
registry scan over the isolated payload. -/
theorem parse_steps (reg : List regEntry) (tag payload outer : List Nat)
    (htag : tag.length = attestationTagSize)
    (hlen : payload.length ≤ attestationMaxPayloadSize) :
    ParseAttestation reg (tag ++ varuintEncode payload.length ++ payload ++ outer) =
      match scanRegistry reg tag payload with
      | none => none
      | some (.error e, reg') => some (.error e, reg')
      | some (.ok (some att), reg') => some (.ok (att, outer), reg')
      | some (.ok none, reg') =>
        some (.ok (.unknown { tag := tag, bytes := payload }, outer), reg') := by
  have h1 : readBytes attestationTagSize
      (tag ++ (varuintEncode payload.length ++ (payload ++ outer))) =
      .ok (tag, varuintEncode payload.length ++ (payload ++ outer)) := by
    rw [← htag, readBytes_append]
  have h2 : readVarBytes 0 attestationMaxPayloadSize
      (varuintEncode payload.length ++ (payload ++ outer)) = .ok (payload, outer) :=
    readVarBytes_append 0 attestationMaxPayloadSize payload outer (Nat.zero_le _) hlen
      (by norm_num [attestationMaxPayloadSize])
  rw [List.append_assoc, List.append_assoc]
  unfold ParseAttestation
  rw [h1]
  dsimp only
  rw [h2]

/-- `ParseAttestation` over the actual registry never panics and
returns the registry unchanged, on every input stream. -/
theorem parse_total_frame (s : List Nat) :
    ∃ res, ParseAttestation attestations s = some (res, attestations) := by
  unfold ParseAttestation
  cases h1 : readBytes attestationTagSize s with
  | error e => exact ⟨.error e, rfl⟩
  | ok v =>
    obtain ⟨tag, s₁⟩ := v
    dsimp only
    cases h2 : readVarBytes 0 attestationMaxPayloadSize s₁ with
    | error e => exact ⟨.error e, rfl⟩
    | ok w =>
      obtain ⟨payload, s₂⟩ := w
      dsimp only
      have hscan : ∃ res, scanRegistry attestations tag payload = some (res, attestations) := by
        by_cases hp : tag = pendingAttestationTag
        · subst hp
          cases hd : readVarBytes 0 pendingAttestationMaxUriLength payload with
          | error e => exact ⟨_, scan_pending_error payload e hd⟩
          | ok w =>
            obtain ⟨uri, rest⟩ := w
            cases rest with
            | nil => exact ⟨_, scan_pending_ok payload uri hd⟩
            | cons x xs => exact ⟨_, scan_pending_trailing payload uri (x :: xs) hd (by simp)⟩
        by_cases hb : tag = bitcoinAttestationTag
        · subst hb
          cases hd : readVarUint payload with
          | error e => exact ⟨_, scan_bitcoin_error payload e hd⟩
          | ok w =>
            obtain ⟨height, rest⟩ := w
            cases rest with
            | nil => exact ⟨_, scan_bitcoin_ok payload height hd⟩
            | cons x xs => exact ⟨_, scan_bitcoin_trailing payload height (x :: xs) hd (by simp)⟩
        exact ⟨_, scan_no_match tag payload hp hb⟩
      obtain ⟨res, hres⟩ := hscan
      rw [hres]
      cases res with
      | error e => exact ⟨.error e, rfl⟩
      | ok o =>
        cases o with
        | none => exact ⟨_, rfl⟩
        | some att => exact ⟨_, rfl⟩

/-- On a successful parse over the actual registry, the remaining
stream is a suffix of the input stream: the cursor only advances. -/
theorem parse_suffix (s : List Nat) (att : attestation) (s' : List Nat)
    (reg' : List regEntry)
    (h : ParseAttestation attestations s = some (.ok (att, s'), reg')) : s' <:+ s := by
  unfold ParseAttestation at h
  cases h1 : readBytes attestationTagSize s with
  | error e => rw [h1] at h; simp at h
  | ok v =>
    obtain ⟨tag, s₁⟩ := v
    rw [h1] at h
    dsimp only at h
    cases h2 : readVarBytes 0 attestationMaxPayloadSize s₁ with
    | error e => rw [h2] at h; simp at h
    | ok w =>
      obtain ⟨payload, s₂⟩ := w
      rw [h2] at h
      dsimp only at h
      have hsub : s₂ <:+ s :=
        (readVarBytes_suffix 0 attestationMaxPayloadSize s₁ payload s₂ h2).trans
          (readBytes_suffix attestationTagSize s tag s₁ h1)
      cases h3 : scanRegistry attestations tag payload with
      | none => rw [h3] at h; simp at h
      | some r =>
        obtain ⟨res, rg⟩ := r
        rw [h3] at h
        cases res with
        | error e => simp at h
        | ok o =>
          cases o with
          | none =>
            simp only [Option.some.injEq, Prod.mk.injEq, Except.ok.injEq] at h
            obtain ⟨⟨-, hs⟩, -⟩ := h
            exact hs ▸ hsub
          | some a =>
            simp only [Option.some.injEq, Prod.mk.injEq, Except.ok.injEq] at h
            obtain ⟨⟨-, hs⟩, -⟩ := h
            exact hs ▸ hsub

/-! ## Claims -/

/-- C1: for every input stream whose 8-byte tag equals neither the
bitcoin constant nor the pending constant, and whose declared payload
of length ≤ 8192 is fully available, `ParseAttestation` succeeds and
yields an `unknownAttestation` whose stored tag and payload are
byte-for-byte the tag and payload read from the stream (and the
registry is untouched). -/
theorem C1_unknown_roundtrip (tag payload outer : List Nat)
    (htag : tag.length = attestationTagSize)
    (hp : tag ≠ pendingAttestationTag) (hb : tag ≠ bitcoinAttestationTag)
    (hlen : payload.length ≤ attestationMaxPayloadSize) :
    ParseAttestation attestations (tag ++ varuintEncode payload.length ++ payload ++ outer) =
      some (.ok (.unknown { tag := tag, bytes := payload }, outer), attestations) := by
  rw [parse_steps attestations tag payload outer htag hlen,
    scan_no_match tag payload hp hb]

/-- Witness for C1: the spec's concrete scenario, tag `ff…ff` with
payload `"abc"`, decodes to the Unknown attestation holding exactly
those bytes. -/
theorem C1_unknown_roundtrip_witness :
    ParseAttestation attestations
        ([255, 255, 255, 255, 255, 255, 255, 255] ++
          varuintEncode ([97, 98, 99] : List Nat).length ++ [97, 98, 99] ++ []) =
      some (.ok (.unknown ⟨[255, 255, 255, 255, 255, 255, 255, 255], [97, 98, 99]⟩, []),
        attestations) :=
  C1_unknown_roundtrip [255, 255, 255, 255, 255, 255, 255, 255] [97, 98, 99] []
    (by decide) (by decide) (by decide) (by decide)

/-- C3: for a declared payload length exceeding 8192 bytes,
`ParseAttestation` fails with the too-large error before any variant
dispatch: the statement holds for every registry whatever (even one
whose `match` would panic), and the bytes after the length never
matter.  Moreover, in every decode the full payload is read as a unit
before any variant decode operation runs: for every registry, once the
tag and the bounded payload are read, the outcome is that of the
registry scan over the complete, isolated payload. -/
theorem C3_payload_too_large :
    (∀ (reg : List regEntry) (tag rest : List Nat) (n : Nat),
      tag.length = attestationTagSize →
      attestationMaxPayloadSize < n → n < 2 ^ 64 →
      ParseAttestation reg (tag ++ varuintEncode n ++ rest) =
        some (.error .tooLarge, reg)) ∧
    (∀ (reg : List regEntry) (tag payload outer : List Nat),
      tag.length = attestationTagSize →
      payload.length ≤ attestationMaxPayloadSize →
      ParseAttestation reg (tag ++ varuintEncode payload.length ++ payload ++ outer) =
        match scanRegistry reg tag payload with
        | none => none
        | some (.error e, reg') => some (.error e, reg')
        | some (.ok (some att), reg') => some (.ok (att, outer), reg')
        | some (.ok none, reg') =>
          some (.ok (.unknown { tag := tag, bytes := payload }, outer), reg')) := by
  constructor
  · intro reg tag rest n htag hn h64
    have h1 : readBytes attestationTagSize (tag ++ (varuintEncode n ++ rest)) =
        .ok (tag, varuintEncode n ++ rest) := by
      rw [← htag, readBytes_append]
    rw [List.append_assoc]
    unfold ParseAttestation
    rw [h1]
    dsimp only
    rw [readVarBytes_tooLarge 0 attestationMaxPayloadSize n rest hn h64]
  · exact parse_steps

/-- Witness for C3: declared length 8193 under the bitcoin tag fails
too-large with no payload bytes present at all. -/
theorem C3_payload_too_large_witness :
    ParseAttestation attestations (bitcoinAttestationTag ++ varuintEncode 8193 ++ []) =
      some (.error .tooLarge, attestations) :=
  C3_payload_too_large.1 attestations bitcoinAttestationTag [] 8193
    (by decide) (by decide) (by decide)

/-- C5: a Bitcoin record whose payload is exactly one well-formed
varint encoding `h` decodes to a `bitcoinAttestation` with
`height = h`, for every representable `h` (up to the 64-bit maximum);
no other field is read, the sub-stream ends exactly after the
varint. -/
theorem C5_bitcoin_height (h : Nat) (outer : List Nat) (h64 : h < 2 ^ 64) :
    ParseAttestation attestations
        (bitcoinAttestationTag ++ varuintEncode (varuintEncode h).length ++
          varuintEncode h ++ outer) =
      some (.ok (.bitcoin { base := { tag := bitcoinAttestationTag }, height := h },
        outer), attestations) := by
  have hlen : (varuintEncode h).length ≤ attestationMaxPayloadSize := by
    have h10 : (varuintEncode h).length ≤ 10 := by
      refine varuintEncode_length 9 h (lt_of_lt_of_le h64 ?_)
      norm_num
    simp only [attestationMaxPayloadSize]
    omega
  have hdec : readVarUint (varuintEncode h) = .ok (h, []) := by
    have := readVarUint_encode h [] h64
    rwa [List.append_nil] at this
  rw [parse_steps attestations bitcoinAttestationTag (varuintEncode h) outer (by decide) hlen,
    scan_bitcoin_ok (varuintEncode h) h hdec]
  rfl

/-- Witness for C5: height 0 (one zero byte) and the maximum
representable 64-bit height both decode to bitcoin attestations with
exactly those heights. -/
theorem C5_bitcoin_height_witness :
    ParseAttestation attestations
        (bitcoinAttestationTag ++ varuintEncode (varuintEncode 0).length ++
          varuintEncode 0 ++ []) =
      some (.ok (.bitcoin { base := { tag := bitcoinAttestationTag }, height := 0 },
        []), attestations) ∧
    ParseAttestation attestations
        (bitcoinAttestationTag ++ varuintEncode (varuintEncode (2 ^ 64 - 1)).length ++
          varuintEncode (2 ^ 64 - 1) ++ []) =
      some (.ok (.bitcoin { base := { tag := bitcoinAttestationTag }, height := 2 ^ 64 - 1 },
        []), attestations) :=
  ⟨C5_bitcoin_height 0 [] (by decide),
   C5_bitcoin_height (2 ^ 64 - 1) [] (by norm_num)⟩

/-- C9: the panicking `unknownAttestation.match` / `.decode` bodies
are unreachable from `ParseAttestation` on the actual registry: the
call returns a value (never the panic outcome `none`) on every input
stream. -/
theorem C9_no_panic (s : List Nat) :
    (ParseAttestation attestations s).isSome = true := by
  obtain ⟨res, hres⟩ := parse_total_frame s
  rw [hres]
  rfl

/-- C2: whenever a registered variant's tag matches and its decode of
the isolated payload succeeds but leaves at least one unconsumed byte
in the sub-stream, `ParseAttestation` fails with the distinct
expected-EOF error and never returns the decoded attestation. -/
theorem C2_trailing_payload (a : regEntry) (tag payload outer rest : List Nat)
    (att : attestation) (a' : regEntry)
    (ha : a ∈ attestations)
    (htag : tag.length = attestationTagSize)
    (hlen : payload.length ≤ attestationMaxPayloadSize)
    (hm : regMatch a tag = some true)
    (hd : regDecode a payload = some (.ok (att, rest), a'))
    (hrest : rest ≠ []) :
    ParseAttestation attestations (tag ++ varuintEncode payload.length ++ payload ++ outer) =
      some (.error .expectedEOF, attestations) := by
  rw [parse_steps attestations tag payload outer htag hlen]
  have ha' : a = .pendingP newPendingAttestation ∨ a = .bitcoinP newBitcoinAttestation := by
    simpa [attestations] using ha
  rcases ha' with h | h
  · subst h
    have hbeq : (pendingAttestationTag == tag) = true := Option.some.inj hm
    have htag' : pendingAttestationTag = tag := eq_of_beq hbeq
    subst htag'
    cases hpd : readVarBytes 0 pendingAttestationMaxUriLength payload with
    | error e =>
      rw [regDecode_pendingP_error _ _ _ hpd] at hd
      simp at hd
    | ok w =>
      obtain ⟨uri, r⟩ := w
      rw [regDecode_pendingP_ok _ _ _ _ hpd] at hd
      have hr : r = rest := by
        simp only [Option.some.injEq, Prod.mk.injEq, Except.ok.injEq] at hd
        exact hd.1.2
      subst hr
      rw [scan_pending_trailing payload uri r hpd hrest]
  · subst h
    have hbeq : (bitcoinAttestationTag == tag) = true := Option.some.inj hm
    have htag' : bitcoinAttestationTag = tag := eq_of_beq hbeq
    subst htag'
    cases hpd : readVarUint payload with
    | error e =>
      rw [regDecode_bitcoinP_error _ _ _ hpd] at hd
      simp at hd
    | ok w =>
      obtain ⟨height, r⟩ := w
      rw [regDecode_bitcoinP_ok _ _ _ _ hpd] at hd
      have hr : r = rest := by
        simp only [Option.some.injEq, Prod.mk.injEq, Except.ok.injEq] at hd
        exact hd.1.2
      subst hr
      rw [scan_bitcoin_trailing payload height r hpd hrest]

/-- Witness for C2: a bitcoin-tagged record whose 2-byte payload is
the varint `5` followed by one extra byte fails with the expected-EOF
error. -/
theorem C2_trailing_payload_witness :
    ParseAttestation attestations
        (bitcoinAttestationTag ++ varuintEncode ([5, 7] : List Nat).length ++ [5, 7] ++ []) =
      some (.error .expectedEOF, attestations) :=
  C2_trailing_payload (.bitcoinP newBitcoinAttestation) bitcoinAttestationTag [5, 7] [] [7]
    (.bitcoin { base := { tag := bitcoinAttestationTag }, height := 5 })
    (.bitcoinP newBitcoinAttestation)
    (by decide) (by decide) (by decide) (by decide) (by decide) (by decide)

/-- C4: a valid Pending record whose payload is one length-prefixed
byte sequence `s` with `s.length ≤ 1000` and nothing after it decodes
to a `pendingAttestation` with `uri = s` (raw-byte transfer, no other
field), and a declared URI length above 1000 fails the pending decode
with the too-large error. -/
theorem C4_pending_uri_bounds :
    (∀ (s outer : List Nat), s.length ≤ pendingAttestationMaxUriLength →
      ParseAttestation attestations
          (pendingAttestationTag ++ varuintEncode (varuintEncode s.length ++ s).length ++
            (varuintEncode s.length ++ s) ++ outer) =
        some (.ok (.pending { base := { tag := pendingAttestationTag }, uri := s },
          outer), attestations)) ∧
    (∀ (m : Nat) (junk outer : List Nat), pendingAttestationMaxUriLength < m →
      m < 2 ^ 64 → (varuintEncode m ++ junk).length ≤ attestationMaxPayloadSize →
      ParseAttestation attestations
          (pendingAttestationTag ++ varuintEncode (varuintEncode m ++ junk).length ++
            (varuintEncode m ++ junk) ++ outer) =
        some (.error .tooLarge, attestations)) := by
  constructor
  · intro s outer hs
    have henc : (varuintEncode s.length).length ≤ 2 := by
      refine varuintEncode_length 1 s.length ?_
      simp only [pendingAttestationMaxUriLength] at hs
      norm_num
      omega
    have hlen : (varuintEncode s.length ++ s).length ≤ attestationMaxPayloadSize := by
      rw [List.length_append]
      simp only [pendingAttestationMaxUriLength] at hs
      simp only [attestationMaxPayloadSize]
      omega
    have hdec : readVarBytes 0 pendingAttestationMaxUriLength (varuintEncode s.length ++ s) =
        .ok (s, []) := by
      have := readVarBytes_append 0 pendingAttestationMaxUriLength s [] (Nat.zero_le _) hs
        (by norm_num [pendingAttestationMaxUriLength])
      rwa [List.append_nil] at this
    rw [parse_steps attestations pendingAttestationTag (varuintEncode s.length ++ s) outer
      (by decide) hlen, scan_pending_ok (varuintEncode s.length ++ s) s hdec]
    rfl
  · intro m junk outer hm h64 hlen
    have hdec : readVarBytes 0 pendingAttestationMaxUriLength (varuintEncode m ++ junk) =
        .error .tooLarge :=
      readVarBytes_tooLarge 0 pendingAttestationMaxUriLength m junk hm h64
    rw [parse_steps attestations pendingAttestationTag (varuintEncode m ++ junk) outer
      (by decide) hlen, scan_pending_error (varuintEncode m ++ junk) .tooLarge hdec]

/-- Witness for C4: URI `"ab"` round-trips through a Pending record,
and a declared URI length of 1001 fails too-large. -/
theorem C4_pending_uri_bounds_witness :
    ParseAttestation attestations
        (pendingAttestationTag ++
          varuintEncode (varuintEncode ([97, 98] : List Nat).length ++ [97, 98]).length ++
          (varuintEncode ([97, 98] : List Nat).length ++ [97, 98]) ++ []) =
      some (.ok (.pending { base := { tag := pendingAttestationTag }, uri := [97, 98] },
        []), attestations) ∧
    ParseAttestation attestations
        (pendingAttestationTag ++ varuintEncode (varuintEncode 1001 ++ []).length ++
          (varuintEncode 1001 ++ []) ++ []) =
      some (.error .tooLarge, attestations) :=
  ⟨C4_pending_uri_bounds.1 [97, 98] [] (by decide),
   C4_pending_uri_bounds.2 1001 [] [] (by decide) (by decide)
     (by
        have h : varuintEncode 1001 = [233, 7] := by
          rw [varuintEncode, dif_neg (by norm_num)]
          norm_num
          rw [varuintEncode, dif_pos (by norm_num)]
        simp [h, attestationMaxPayloadSize])⟩

/-- C7: a stream with fewer than 8 bytes at the start of a record
fails with the truncation error, and so does a record whose declared
(in-bound) payload length exceeds the bytes actually available; the
cursor never reads past the available bytes. -/
theorem C7_truncation :
    (∀ s : List Nat, s.length < attestationTagSize →
      ParseAttestation attestations s = some (.error .truncated, attestations)) ∧
    (∀ (tag rest : List Nat) (n : Nat), tag.length = attestationTagSize →
      n ≤ attestationMaxPayloadSize → rest.length < n →
      ParseAttestation attestations (tag ++ varuintEncode n ++ rest) =
        some (.error .truncated, attestations)) := by
  constructor
  · intro s hs
    unfold ParseAttestation
    rw [readBytes_short attestationTagSize s hs]
  · intro tag rest n htag hn hshort
    have h1 : readBytes attestationTagSize (tag ++ (varuintEncode n ++ rest)) =
        .ok (tag, varuintEncode n ++ rest) := by
      rw [← htag, readBytes_append]
    have h64 : n < 2 ^ 64 := by
      simp only [attestationMaxPayloadSize] at hn
      norm_num
      omega
    have h2 : readVarBytes 0 attestationMaxPayloadSize (varuintEncode n ++ rest) =
        .error .truncated := by
      unfold readVarBytes
      rw [readVarUint_encode n rest h64]
      dsimp only
      rw [if_neg (by omega), if_neg (by omega), readBytes_short n rest hshort]
    rw [List.append_assoc]
    unfold ParseAttestation
    rw [h1]
    dsimp only
    rw [h2]

/-- Witness for C7: a 3-byte stream fails at the tag read, and a
record declaring a 5-byte payload over 2 available bytes fails at the
payload read. -/
theorem C7_truncation_witness :
    ParseAttestation attestations [1, 2, 3] = some (.error .truncated, attestations) ∧
    ParseAttestation attestations
        ([9, 9, 9, 9, 9, 9, 9, 9] ++ varuintEncode 5 ++ [1, 2]) =
      some (.error .truncated, attestations) :=
  ⟨C7_truncation.1 [1, 2, 3] (by decide),
   C7_truncation.2 [9, 9, 9, 9, 9, 9, 9, 9] [1, 2] 5 (by decide) (by decide) (by decide)⟩

/-- Counterexample for C7 as stated: the bytes `[129, 64]` after the
bitcoin tag declare a payload length of 8193 while 0 payload bytes are
available, so the declared length exceeds the available bytes, yet the
parse fails with the too-large error, not the truncation error: the
bound check precedes the availability check. -/
theorem C7_truncation_counterexample :
    ParseAttestation attestations (bitcoinAttestationTag ++ [129, 64]) =
      some (.error .tooLarge, attestations) ∧
    DError.tooLarge ≠ DError.truncated ∧
    readVarUint [129, 64] = .ok (8193, []) := by
  refine ⟨by decide, by decide, by decide⟩

/-- C6: variant selection is by exact byte-for-byte tag equality
against each registered prototype's constant — a match holds iff the
tag equals the constant, so no wildcard or prefix comparison — the
registry is exactly the pending prototype followed by the bitcoin
prototype, and the scan is first-match-wins: once an entry matches,
the outcome is that of scanning that entry alone, whatever follows
it in the registry. -/
theorem C6_variant_selection :
    attestations = [.pendingP newPendingAttestation, .bitcoinP newBitcoinAttestation] ∧
    newPendingAttestation.base.tag = pendingAttestationTag ∧
    newBitcoinAttestation.base.tag = bitcoinAttestationTag ∧
    (∀ tag : List Nat,
      regMatch (.pendingP newPendingAttestation) tag = some true ↔
        tag = pendingAttestationTag) ∧
    (∀ tag : List Nat,
      regMatch (.bitcoinP newBitcoinAttestation) tag = some true ↔
        tag = bitcoinAttestationTag) ∧
    (∀ (a : regEntry) (rest : List regEntry) (tag payload : List Nat),
      regMatch a tag = some true →
      Option.map Prod.fst (scanRegistry (a :: rest) tag payload) =
        Option.map Prod.fst (scanRegistry [a] tag payload)) := by
  refine ⟨rfl, rfl, rfl, ?_, ?_, ?_⟩
  · intro tag
    rw [regMatch_pendingP]
    simp only [Option.some.injEq, beq_iff_eq, newPendingAttestation]
    exact eq_comm
  · intro tag
    rw [regMatch_bitcoinP]
    simp only [Option.some.injEq, beq_iff_eq, newBitcoinAttestation]
    exact eq_comm
  · intro a rest tag payload hm
    simp only [scanRegistry, hm]
    cases hd : regDecode a payload with
    | none => rfl
    | some w =>
      obtain ⟨res, a'⟩ := w
      cases res with
      | error e => rfl
      | ok v =>
        obtain ⟨att, subRest⟩ := v
        dsimp only
        cases assertEOF subRest <;> rfl

/-- Witness for C6: the first-match conjunct at the pending prototype
in front of the actual registry tail, and the exact-equality conjunct
applied to the pending constant itself. -/
theorem C6_variant_selection_witness :
    Option.map Prod.fst
        (scanRegistry
          (.pendingP newPendingAttestation :: [.bitcoinP newBitcoinAttestation])
          pendingAttestationTag [0]) =
      Option.map Prod.fst
        (scanRegistry [.pendingP newPendingAttestation] pendingAttestationTag [0]) ∧
    (regMatch (.pendingP newPendingAttestation) pendingAttestationTag = some true ↔
      pendingAttestationTag = pendingAttestationTag) :=
  ⟨C6_variant_selection.2.2.2.2.2 (.pendingP newPendingAttestation)
      [.bitcoinP newBitcoinAttestation] pendingAttestationTag [0] (by decide),
   C6_variant_selection.2.2.2.1 pendingAttestationTag⟩

/-- C8: `ParseAttestation` is deterministic — streams with identical
bytes produce identical outcomes (value or error) — and its only
effect on the stream is advancing the cursor: the stream returned by a
successful parse is a suffix of the input stream. -/
theorem C8_deterministic :
    (∀ s₁ s₂ : List Nat, s₁ = s₂ →
      ParseAttestation attestations s₁ = ParseAttestation attestations s₂) ∧
    (∀ (s : List Nat) (att : attestation) (s' : List Nat) (reg' : List regEntry),
      ParseAttestation attestations s = some (.ok (att, s'), reg') → s' <:+ s) :=
  ⟨fun _ _ h => h ▸ rfl, fun s att s' reg' h => parse_suffix s att s' reg' h⟩

/-- Witness for C8: two runs over the same concrete bytes agree, and a
concrete successful parse (unknown tag, payload `[7]`) leaves the
empty remainder, a suffix of the input. -/
theorem C8_deterministic_witness :
    ParseAttestation attestations [255, 255, 255, 255, 255, 255, 255, 255, 1, 7] =
      ParseAttestation attestations [255, 255, 255, 255, 255, 255, 255, 255, 1, 7] ∧
    ([] : List Nat) <:+ [255, 255, 255, 255, 255, 255, 255, 255, 1, 7] :=
  ⟨C8_deterministic.1 [255, 255, 255, 255, 255, 255, 255, 255, 1, 7]
      [255, 255, 255, 255, 255, 255, 255, 255, 1, 7] rfl,
   C8_deterministic.2 [255, 255, 255, 255, 255, 255, 255, 255, 1, 7]
      (.unknown ⟨[255, 255, 255, 255, 255, 255, 255, 255], [7]⟩) [] attestations
      (by decide)⟩

/-- C10: `ParseAttestation` never mutates the prototypes or the
registry: each variant decode returns its receiver untouched (the
decoded value is a fresh copy), the registered prototypes keep their
zero-valued fields and their tag constants, every call returns the
registry unchanged, and a subsequent call through the returned
registry behaves exactly like one through the original. -/
theorem C10_frame :
    (∀ (p : pendingAttestation) (s : List Nat), (p.decode s).2 = p) ∧
    (∀ (b : bitcoinAttestation) (s : List Nat), (b.decode s).2 = b) ∧
    newPendingAttestation.uri = [] ∧
    newBitcoinAttestation.height = 0 ∧
    newPendingAttestation.base.tag = pendingAttestationTag ∧
    newBitcoinAttestation.base.tag = bitcoinAttestationTag ∧
    (∀ (s : List Nat) (res : Except DError (attestation × List Nat)) (reg' : List regEntry),
      ParseAttestation attestations s = some (res, reg') → reg' = attestations) ∧
    (∀ (s t : List Nat) (res : Except DError (attestation × List Nat)) (reg' : List regEntry),
      ParseAttestation attestations s = some (res, reg') →
      ParseAttestation reg' t = ParseAttestation attestations t) := by
  have hreg : ∀ (s : List Nat) (res : Except DError (attestation × List Nat))
      (reg' : List regEntry),
      ParseAttestation attestations s = some (res, reg') → reg' = attestations := by
    intro s res reg' h
    obtain ⟨res', hres⟩ := parse_total_frame s
    rw [hres] at h
    exact (Prod.mk.injEq .. ▸ Option.some.inj h).2.symm ▸ rfl
  exact ⟨pending_decode_snd, bitcoin_decode_snd, rfl, rfl, rfl, rfl, hreg,
    fun s t res reg' h => by rw [hreg s res reg' h]⟩

/-- Witness for C10: a concrete failing call and a concrete succeeding
call both leave the registry equal to the original, and the follow-up
call through the returned registry coincides with a fresh one. -/
theorem C10_frame_witness :
    (pendingAttestation.decode newPendingAttestation [1, 55]).2 = newPendingAttestation ∧
    attestations = attestations ∧
    ParseAttestation attestations [3] = ParseAttestation attestations [3] :=
  ⟨C10_frame.1 newPendingAttestation [1, 55],
   C10_frame.2.2.2.2.2.2.1 [1, 2] (.error .truncated) attestations (by decide),
   C10_frame.2.2.2.2.2.2.2 [255, 255, 255, 255, 255, 255, 255, 255, 0] [3]
     (.ok (.unknown ⟨[255, 255, 255, 255, 255, 255, 255, 255], []⟩, [])) attestations
     (by decide)⟩

end OTS
